import Mathlib

/-!
Shallow embedding of the ataqv web dashboard's coordination core
(src/web/js/ataqv.js): the metrics data model, the per-chart data
transforms, and the sample-selection (legend) state, together with
proofs about them.

Conventions of the embedding:
- JavaScript numbers are modelled as exact rationals.
- A JavaScript expression that would throw a TypeError (dereferencing an
  absent optional object) is modelled by a function returning Option,
  with none standing for the thrown error.
- A JavaScript Map is modelled as an association list with unique keys,
  insertion at the end, update in place.
- Optional object fields are modelled as Option; the JavaScript idiom
  (a || b) on a possibly-absent string is modelled by jsOrString, which
  also treats the empty string as falsy, as JavaScript does.
- The scatter plot's y-axis select box is modelled by YAxisSource: one
  constructor per metric the switch statement special-cases, and one
  carrying the selected metric field itself for the default branch
  (JavaScript reads that field by its name string).
-/

namespace Ataqv

/-- JavaScript (s || d) for an optional string s: absent and the empty
string are falsy, so both fall back to d. -/
def jsOrString (s : Option String) (d : String) : String :=
  match s with
  | none => d
  | some v => if v = "" then d else v

/-- d3.min over a sequence: none on an empty list, otherwise the least
element, computed as a left fold as d3 does. -/
def d3min {α : Type} [Min α] : List α → Option α
  | [] => none
  | x :: xs => some (xs.foldl min x)

/-- d3.max over a sequence: none on an empty list, otherwise the greatest
element. -/
def d3max {α : Type} [Max α] : List α → Option α
  | [] => none
  | x :: xs => some (xs.foldl max x)

/-- The library block of one experiment's metrics: sample, library and
description are all optional strings in the input document. -/
structure Library where
  sample : Option String
  library : Option String
  description : Option String
deriving DecidableEq

/-- Optional peak percentile data of one experiment: two cumulative
sequences of at most 100 entries. -/
structure PeakPercentiles where
  cumulative_fraction_of_hqaa : List ℚ
  cumulative_fraction_of_territory : List ℚ
deriving DecidableEq

/-- One experiment's metrics record, restricted to the fields the
transforms read.  fragment_length_counts entries are (length, fraction)
pairs indexed by position; mapq_counts entries are (quality, count)
pairs. -/
structure ExperimentMetrics where
  name : String
  library : Library
  total_reads : ℚ
  total_autosomal_reads : ℚ
  duplicate_autosomal_reads : ℚ
  short_mononucleosomal_ratio : ℚ
  fragment_length_distance : ℚ
  fragment_length_counts : List (ℚ × ℚ)
  mapq_counts : List (ℚ × ℚ)
  peak_percentiles : Option PeakPercentiles
deriving DecidableEq

/-- The optional reference fragment length distribution of the
configuration document. -/
structure FragmentLengthReference where
  source : String
  distribution : List (ℚ × ℚ)
deriving DecidableEq

/-- The configuration document handed to ataqv.configure: a metrics
object (association list keyed by ExperimentID) plus optional
description and reference distribution. -/
structure Configuration where
  description : Option String
  metrics : List (String × ExperimentMetrics)
  fragment_length_reference : Option FragmentLengthReference
deriving DecidableEq

/-- Object.keys(configuration.metrics).sort() followed by per-key lookup:
the metrics association list in lexicographic key order. -/
def sortedMetrics (conf : Configuration) : List (String × ExperimentMetrics) :=
  conf.metrics.insertionSort (fun p q => p.1 ≤ q.1)

/-- SampleID derivation: experiment.library.sample || experiment.name. -/
def sampleOf (m : ExperimentMetrics) : String :=
  jsOrString m.library.sample m.name

/-! ### The legendItemState Map (SelectionState) -/

/-- Map.prototype.get on the association-list model of a Map. -/
def mapGet (m : List (String × Bool)) (k : String) : Option Bool :=
  match m with
  | [] => none
  | p :: rest => if p.1 = k then some p.2 else mapGet rest k

/-- Map.prototype.set on the association-list model of a Map: update the
existing entry in place, or append a new one. -/
def mapSet (m : List (String × Bool)) (k : String) (v : Bool) : List (String × Bool) :=
  match m with
  | [] => [(k, v)]
  | p :: rest => if p.1 = k then (k, v) :: rest else p :: mapSet rest k v

/-- The keys of the association-list model of a Map, in insertion order. -/
def mapKeys (m : List (String × Bool)) : List String :=
  m.map Prod.fst

/-- selectLegendItem's state change: if legendItemState.get(sample) is
truthy set it to false, otherwise to true. -/
def selectLegendItem (m : List (String × Bool)) (sample : String) : List (String × Bool) :=
  match mapGet m sample with
  | some true => mapSet m sample false
  | _ => mapSet m sample true

/-- deselectAllLegendItems: set every key of legendItemState to false. -/
def deselectAllLegendItems (m : List (String × Bool)) : List (String × Bool) :=
  (mapKeys m).foldl (fun acc k => mapSet acc k false) m

/-- selectAllLegendItems: set every key of legendItemState to true. -/
def selectAllLegendItems (m : List (String × Bool)) : List (String × Bool) :=
  (mapKeys m).foldl (fun acc k => mapSet acc k true) m

/-- The legendItemState built by initialize(): starting from the empty
Map, set (experiment.library.sample || experiment.name) to true for
every experiment of the configuration. -/
def initialLegendItemState (conf : Configuration) : List (String × Bool) :=
  conf.metrics.foldl (fun acc p => mapSet acc (sampleOf p.2) true) []

/-! ### Scatter plot (makeFragmentLengthDistancePlot) -/

/-- The scatter plot's y-axis data source, chosen by the Y AXIS select
box: the two specially-cased metrics of getYValue's switch statement,
or any other numeric metric field for the default branch (JavaScript
selects that field by its name string). -/
inductive YAxisSource where
  | short_mononucleosomal_ratio : YAxisSource
  | duplicate_autosomal_reads : YAxisSource
  | other : (ExperimentMetrics → ℚ) → YAxisSource

/-- getYValue: the raw ratio, the duplicate percentage of autosomal
reads, or by default 100 * field / total_reads. -/
def getYValue (src : YAxisSource) (experiment : ExperimentMetrics) : ℚ :=
  match src with
  | .short_mononucleosomal_ratio => experiment.short_mononucleosomal_ratio
  | .duplicate_autosomal_reads =>
      100 * (experiment.duplicate_autosomal_reads / experiment.total_autosomal_reads)
  | .other field => 100 * (field experiment / experiment.total_reads)

/-- One point of the scatter data array, as makeLibrary builds it. -/
structure ScatterLibrary where
  experimentID : String
  library : String
  sample : String
  description : Option String
  x : ℚ
  y : ℚ
deriving DecidableEq

/-- makeLibrary: the scatter point of one experiment. -/
def makeLibrary (src : YAxisSource) (id : String) (experiment : ExperimentMetrics) :
    ScatterLibrary :=
  { experimentID := id
    library := jsOrString experiment.library.library experiment.name
    sample := jsOrString experiment.library.sample experiment.name
    description := experiment.library.description
    x := experiment.fragment_length_distance
    y := getYValue src experiment }

/-- The scatter plot's data array: one library point per experiment, in
sorted ExperimentID order. -/
def scatterData (src : YAxisSource) (conf : Configuration) : List ScatterLibrary :=
  (sortedMetrics conf).map fun p => makeLibrary src p.1 p.2

/-- The x values of the distance-vs-metric scatter data: every
experiment's fragment_length_distance, in sorted ExperimentID order. -/
def scatterXs (conf : Configuration) : List ℚ :=
  (sortedMetrics conf).map fun p => p.2.fragment_length_distance

/-- The scatter plot's axis limit:
Math.max(Math.abs(d3.min(data, xValue)), Math.abs(d3.max(data, xValue))) * 1.05. -/
def scatterLimit (xs : List ℚ) : ℚ :=
  max |(d3min xs).getD 0| |(d3max xs).getD 0| * (21 / 20)

/-- The scatter plot's x-axis domain: symmetric about zero when
d3.min(data, xValue) < 0, otherwise starting at zero. -/
def scatterXDomain (xs : List ℚ) : ℚ × ℚ :=
  if (d3min xs).getD 0 < 0 then (-scatterLimit xs, scatterLimit xs)
  else (0, scatterLimit xs)

/-- Per-sample meanDistance: the sum of the group's x values (a reduce
with initial value 0) divided by the number of libraries. -/
def meanDistance (xs : List ℚ) : ℚ :=
  xs.foldl (· + ·) 0 / xs.length

/-- Per-sample meanSquareOfDifferences, whose square root the scatter
plot reports as the sample's distanceStandardDeviation: the squared
deviations from meanDistance, summed and divided by the number of
libraries (not by one less). -/
def meanSquareOfDifferences (xs : List ℚ) : ℚ :=
  ((xs.map fun a => (a - meanDistance xs) ^ 2).foldl (· + ·) 0) / xs.length

/-! ### Line plot series -/

/-- One series of a line plot's dataset, as provideData builds it. -/
structure LineSeries where
  experimentID : String
  library : Option String
  description : Option String
  sample : String
  line : List (Nat × ℚ)
deriving DecidableEq

/-! ### Fragment length plot (plots.plotFragmentLength) -/

/-- Position fl's fraction value,
(experiment.fragment_length_counts[fl][1] || 0); the fraction of a
(length, fraction) pair, with 0 for a falsy value. -/
def fracAt (counts : List (ℚ × ℚ)) (fl : Nat) : ℚ :=
  (counts.getD fl (0, 0)).2

/-- One iteration of the fragment length resampling loop: add position
fl's fraction to the running sum; when fl is a multiple of the
resolution, emit the point (fl, sum / resolution) and reset the sum. -/
def resampleStep (frac : Nat → ℚ) (resolution : Nat)
    (st : ℚ × List (Nat × ℚ)) (fl : Nat) : ℚ × List (Nat × ℚ) :=
  let sum := st.1 + frac fl
  if fl % resolution = 0 then ((0 : ℚ), st.2 ++ [(fl, sum / resolution)])
  else (sum, st.2)

/-- The fragment length resampling loop,
for (let fl = 0; fl < maxLen; fl++), starting from sum = 0 and an empty
line; the emitted line. -/
def resampleLine (frac : Nat → ℚ) (resolution maxLen : Nat) : List (Nat × ℚ) :=
  ((List.range maxLen).foldl (resampleStep frac resolution) ((0 : ℚ), [])).2

/-- The lengths of each experiment's fragment_length_counts sequence, in
sorted ExperimentID order. -/
def flLengths (conf : Configuration) : List Nat :=
  (sortedMetrics conf).map fun p => p.2.fragment_length_counts.length

/-- maximumInterestingFragmentLength: d3.min of the
fragment_length_counts lengths (0 when there are no experiments, in
which case no loop body runs). -/
def flMaxLen (conf : Configuration) : Nat :=
  (d3min (flLengths conf)).getD 0

/-- The series record the fragment length transform builds for one
experiment. -/
def flSeriesFor (resolution maxLen : Nat) (id : String) (m : ExperimentMetrics) :
    LineSeries :=
  { experimentID := id
    library := some (jsOrString m.library.library m.name)
    description := m.library.description
    sample := jsOrString m.library.sample m.name
    line := resampleLine (fracAt m.fragment_length_counts) resolution maxLen }

/-- The fragment length plot's dataset. -/
structure FLPlotData where
  series : List (String × LineSeries)
  referenceSource : String
  referenceLine : List (Nat × ℚ)
  xMax : Nat
  yMax : ℚ
  xLabel : String
  yLabel : String
deriving DecidableEq

/-- provideData of plots.plotFragmentLength.  none models a thrown
TypeError: reading configuration.fragment_length_reference.source when
the reference is absent, or indexing the reference distribution past its
end inside the reference resampling loop. -/
def flProvideData (conf : Configuration) (resolution : Nat) : Option FLPlotData :=
  match conf.fragment_length_reference with
  | none => none
  | some ref =>
    let maxLen := flMaxLen conf
    if ref.distribution.length < maxLen then none
    else
      let series := (sortedMetrics conf).map fun p =>
        (p.1, flSeriesFor resolution maxLen p.1 p.2)
      let refLine := resampleLine (fracAt ref.distribution) resolution maxLen
      some
        { series := series
          referenceSource := ref.source
          referenceLine := refLine
          xMax := maxLen
          yMax := (((series.map fun p => p.2.line) ++ [refLine]).flatten.map
            Prod.snd).foldl max 0
          xLabel := "Fragment length (bp)"
          yLabel := "Fraction of all reads" }

/-- The dataset flProvideData builds in its successful case (the let
bindings of flProvideData substituted out, for use in equations). -/
def flPlotDataOf (conf : Configuration) (resolution : Nat) (ref : FragmentLengthReference) :
    FLPlotData :=
  { series := (sortedMetrics conf).map fun p =>
      (p.1, flSeriesFor resolution (flMaxLen conf) p.1 p.2)
    referenceSource := ref.source
    referenceLine := resampleLine (fracAt ref.distribution) resolution (flMaxLen conf)
    xMax := flMaxLen conf
    yMax := (((((sortedMetrics conf).map fun p =>
        (p.1, flSeriesFor resolution (flMaxLen conf) p.1 p.2)).map fun p => p.2.line) ++
        [resampleLine (fracAt ref.distribution) resolution (flMaxLen conf)]).flatten.map
        Prod.snd).foldl max 0
    xLabel := "Fragment length (bp)"
    yLabel := "Fraction of all reads" }

/-- An experiment record in which every optional field is absent: no
sample, no library name, no description and no peak_percentiles. -/
def noPeakMetrics : ExperimentMetrics :=
  { name := "exp1"
    library := { sample := none, library := none, description := none }
    total_reads := 100
    total_autosomal_reads := 80
    duplicate_autosomal_reads := 10
    short_mononucleosomal_ratio := 1
    fragment_length_distance := 0
    fragment_length_counts := [(0, 0), (1, 0)]
    mapq_counts := []
    peak_percentiles := none }

/-- A concrete configuration in which every optional field is absent: no
dataset description, no fragment_length_reference, and one experiment in
which every optional field is absent. -/
def noRefConf : Configuration :=
  { description := none
    metrics := [("exp1", noPeakMetrics)]
    fragment_length_reference := none }

/-- A concrete configuration with one experiment of 150 histogram
entries and one of 120, and a 120-entry reference distribution — the
spec's truncation example. -/
def truncationExampleConf : Configuration :=
  { description := none
    metrics :=
      [("expA",
        { name := "expA"
          library := { sample := some "sA", library := none, description := none }
          total_reads := 100
          total_autosomal_reads := 80
          duplicate_autosomal_reads := 10
          short_mononucleosomal_ratio := 1
          fragment_length_distance := 0
          fragment_length_counts := List.replicate 150 (0, 0)
          mapq_counts := []
          peak_percentiles := none }),
       ("expB",
        { name := "expB"
          library := { sample := some "sB", library := none, description := none }
          total_reads := 100
          total_autosomal_reads := 80
          duplicate_autosomal_reads := 10
          short_mononucleosomal_ratio := 1
          fragment_length_distance := 0
          fragment_length_counts := List.replicate 120 (0, 0)
          mapq_counts := []
          peak_percentiles := none })]
    fragment_length_reference :=
      some { source := "ref", distribution := List.replicate 120 (0, 0) } }

/-! ### Mapping quality plot (plots.plotMapq) -/

/-- One series of the mapping quality plot: its line has one point per
mapq_counts entry, at x = the quality value, y = count / total_reads,
with no binning. -/
structure MapqSeries where
  experimentID : String
  library : Option String
  description : Option String
  sample : String
  line : List (ℚ × ℚ)
deriving DecidableEq

/-- The mapping quality plot's dataset. -/
structure MapqPlotData where
  series : List (String × MapqSeries)
  xMax : ℚ
  yMax : ℚ
  xLabel : String
  yLabel : String
deriving DecidableEq

/-- The series record the mapping quality transform builds for one
experiment. -/
def mapqSeriesFor (id : String) (m : ExperimentMetrics) : MapqSeries :=
  { experimentID := id
    library := m.library.library
    description := m.library.description
    sample := jsOrString m.library.sample m.name
    line := m.mapq_counts.map fun mqc => (mqc.1, mqc.2 / m.total_reads) }

/-- provideData of plots.plotMapq: xMax is the running maximum (from 0)
of the observed quality values, yMax of the normalized counts. -/
def mapqData (conf : Configuration) : MapqPlotData :=
  let series := (sortedMetrics conf).map fun p => (p.1, mapqSeriesFor p.1 p.2)
  { series := series
    xMax := (((sortedMetrics conf).map fun p => p.2.mapq_counts.map Prod.fst).flatten).foldl
      max 0
    yMax := ((series.map fun p => p.2.line.map Prod.snd).flatten).foldl max 0
    xLabel := "Mapping quality"
    yLabel := "Fraction of all reads" }

/-! ### Peak plots (plots.plotPeakReadCounts, plots.plotPeakTerritory) -/

/-- One iteration of the peak percentile loop: take the array's value at
this index while one is available, otherwise carry the previous value
forward; emit the point (percentile + 1, value). -/
def peakStep (percentiles : List ℚ) (st : ℚ × List (Nat × ℚ)) (percentile : Nat) :
    ℚ × List (Nat × ℚ) :=
  let c := if percentile < percentiles.length then percentiles.getD percentile 0 else st.1
  (c, st.2 ++ [(percentile + 1, c)])

/-- The 100-point cumulative curve both peak transforms build from a
percentile array, starting the carried value at 0. -/
def peakLine (percentiles : List ℚ) : List (Nat × ℚ) :=
  ((List.range 100).foldl (peakStep percentiles) ((0 : ℚ), [])).2

/-- The percentile array a peak transform uses for one experiment: the
selected field when peak_percentiles is present, else 100 zeros
(new Array(100).fill(0)). -/
def percentilesOrZeros (m : ExperimentMetrics) (f : PeakPercentiles → List ℚ) : List ℚ :=
  match m.peak_percentiles with
  | some pp => f pp
  | none => List.replicate 100 0

/-- The series record a peak transform builds for one experiment from a
percentile array. -/
def peakSeriesFor (ps : List ℚ) (id : String) (m : ExperimentMetrics) : LineSeries :=
  { experimentID := id
    library := m.library.library
    description := m.library.description
    sample := jsOrString m.library.sample m.name
    line := peakLine ps }

/-- A peak plot's dataset. -/
structure PeakPlotData where
  series : List (String × LineSeries)
  xMax : Nat
  yMax : ℚ
  xLabel : String
  yLabel : String
deriving DecidableEq

/-- provideData of plots.plotPeakReadCounts: the cumulative fraction of
high-quality autosomal reads per peak percentile. -/
def peakReadCountsData (conf : Configuration) : PeakPlotData :=
  let series := (sortedMetrics conf).map fun p =>
    (p.1, peakSeriesFor (percentilesOrZeros p.2 PeakPercentiles.cumulative_fraction_of_hqaa)
      p.1 p.2)
  { series := series
    xMax := 100
    yMax := ((series.map fun p => p.2.line).flatten.map Prod.snd).foldl max 0
    xLabel := "Peak percentile"
    yLabel := "Cumulative fraction of high-quality autosomal reads" }

/-- provideData of plots.plotPeakTerritory: the cumulative fraction of
peak territory per peak percentile. -/
def peakTerritoryData (conf : Configuration) : PeakPlotData :=
  let series := (sortedMetrics conf).map fun p =>
    (p.1, peakSeriesFor (percentilesOrZeros p.2 PeakPercentiles.cumulative_fraction_of_territory)
      p.1 p.2)
  { series := series
    xMax := 100
    yMax := ((series.map fun p => p.2.line).flatten.map Prod.snd).foldl max 0
    xLabel := "Peak percentile"
    yLabel := "Cumulative fraction of peak territory" }

/-! ### Characterizations used by the proofs -/

/-- The running sum of the fragment length resampling loop after
processing positions 0..n-1: it resets just after each position that is
a multiple of the resolution. -/
def flPending (frac : Nat → ℚ) (resolution : Nat) : Nat → ℚ
  | 0 => 0
  | n + 1 => if n % resolution = 0 then 0 else flPending frac resolution n + frac n

/-- The line emitted by the fragment length resampling loop after
processing positions 0..n-1. -/
def flEmitted (frac : Nat → ℚ) (resolution : Nat) : Nat → List (Nat × ℚ)
  | 0 => []
  | n + 1 =>
    flEmitted frac resolution n ++
      (if n % resolution = 0 then
        [(n, (flPending frac resolution n + frac n) / resolution)]
      else [])

/-- The window of positions the amended block-mean claim assigns to an
emitted index m: position 0 alone when m = 0, otherwise the resolution
consecutive positions ending at m. -/
def windowSum (frac : Nat → ℚ) (resolution m : Nat) : ℚ :=
  if m = 0 then frac 0
  else ((List.range resolution).map fun j => frac (m - resolution + 1 + j)).sum

/-- The points the amended block-mean claim predicts: one per index
m < maxLen with m a multiple of the resolution, at x = m, with y the
window's sum divided by the resolution. -/
def blockPoints (frac : Nat → ℚ) (resolution maxLen : Nat) : List (Nat × ℚ) :=
  ((List.range maxLen).filter fun m => m % resolution == 0).map
    fun m => (m, windowSum frac resolution m / resolution)

/-- A concrete one-experiment configuration whose fragment length
fractions are 2, 4, 6, 8, the spec's block-mean example, with a
reference distribution of the same length. -/
def blockMeanExampleConf : Configuration :=
  { description := none
    metrics :=
      [("exp1",
        { name := "exp1"
          library := { sample := some "s1", library := some "l1", description := none }
          total_reads := 100
          total_autosomal_reads := 80
          duplicate_autosomal_reads := 10
          short_mononucleosomal_ratio := 1
          fragment_length_distance := 0
          fragment_length_counts := [(0, 2), (1, 4), (2, 6), (3, 8)]
          mapq_counts := []
          peak_percentiles := none })]
    fragment_length_reference :=
      some { source := "ref", distribution := [(0, 0), (1, 0), (2, 0), (3, 0)] } }

/-- The value the peak percentile loop carries at 0-based index i: the
array's entry while one is available, afterwards the array's last entry
(or the initial 0 for an empty array). -/
def peakValue (ps : List ℚ) (i : Nat) : ℚ :=
  if i < ps.length then ps.getD i 0 else ps.getLastD 0

/-- The carried value of the peak percentile loop after processing
indices 0..n-1. -/
def peakCarry (ps : List ℚ) : Nat → ℚ
  | 0 => 0
  | n + 1 => peakValue ps n

/-- A concrete one-experiment configuration whose peak percentile arrays
have 40 entries, the spec's carry-forward example. -/
def carryForwardExamplePercentiles : PeakPercentiles :=
  { cumulative_fraction_of_hqaa := List.replicate 39 0 ++ [7 / 10]
    cumulative_fraction_of_territory := List.replicate 39 0 ++ [9 / 10] }

/-- The experiment record of the carry-forward example. -/
def carryForwardExampleMetrics : ExperimentMetrics :=
  { name := "exp1"
    library := { sample := some "s1", library := none, description := none }
    total_reads := 100
    total_autosomal_reads := 80
    duplicate_autosomal_reads := 10
    short_mononucleosomal_ratio := 1
    fragment_length_distance := 0
    fragment_length_counts := [(0, 0)]
    mapq_counts := []
    peak_percentiles := some carryForwardExamplePercentiles }

/-- The configuration of the carry-forward example. -/
def carryForwardExampleConf : Configuration :=
  { description := none
    metrics := [("exp1", carryForwardExampleMetrics)]
    fragment_length_reference := none }

/-! ### Lemmas about d3min and d3max -/

theorem foldl_min_le_init {α : Type} [LinearOrder α] :
    ∀ (xs : List α) (a : α), xs.foldl min a ≤ a := by
  intro xs
  induction xs with
  | nil => intro a; exact le_refl a
  | cons x xs ih => intro a; exact le_trans (ih (min a x)) (min_le_left a x)

theorem foldl_min_le_mem {α : Type} [LinearOrder α] :
    ∀ (xs : List α) (a y : α), y ∈ xs → xs.foldl min a ≤ y := by
  intro xs
  induction xs with
  | nil => intro a y hy; cases hy
  | cons x xs ih =>
    intro a y hy
    rcases List.mem_cons.mp hy with h | h
    · subst h
      exact le_trans (foldl_min_le_init xs (min a y)) (min_le_right a y)
    · exact ih (min a x) y h

theorem foldl_min_mem {α : Type} [LinearOrder α] :
    ∀ (xs : List α) (a : α), xs.foldl min a = a ∨ xs.foldl min a ∈ xs := by
  intro xs
  induction xs with
  | nil => intro a; exact Or.inl rfl
  | cons x xs ih =>
    intro a
    rw [List.foldl_cons]
    rcases ih (min a x) with h | h
    · rcases min_cases a x with ⟨h1, _⟩ | ⟨h1, _⟩
      · exact Or.inl (by rw [h, h1])
      · exact Or.inr (by rw [h, h1]; exact List.mem_cons_self x xs)
    · exact Or.inr (List.mem_cons_of_mem x h)

theorem d3min_spec {α : Type} [LinearOrder α] (xs : List α) (h : xs ≠ []) :
    ∃ m, d3min xs = some m ∧ m ∈ xs ∧ ∀ y ∈ xs, m ≤ y := by
  cases xs with
  | nil => exact absurd rfl h
  | cons x xs =>
    refine ⟨xs.foldl min x, rfl, ?_, ?_⟩
    · rcases foldl_min_mem xs x with h1 | h1
      · rw [h1]
        exact List.mem_cons_self x xs
      · exact List.mem_cons_of_mem x h1
    · intro y hy
      rcases List.mem_cons.mp hy with h1 | h1
      · subst h1
        exact foldl_min_le_init xs y
      · exact foldl_min_le_mem xs x y h1

theorem foldl_max_le_init {α : Type} [LinearOrder α] :
    ∀ (xs : List α) (a : α), a ≤ xs.foldl max a := by
  intro xs
  induction xs with
  | nil => intro a; exact le_refl a
  | cons x xs ih => intro a; exact le_trans (le_max_left a x) (ih (max a x))

theorem foldl_max_le_mem {α : Type} [LinearOrder α] :
    ∀ (xs : List α) (a y : α), y ∈ xs → y ≤ xs.foldl max a := by
  intro xs
  induction xs with
  | nil => intro a y hy; cases hy
  | cons x xs ih =>
    intro a y hy
    rcases List.mem_cons.mp hy with h | h
    · subst h
      exact le_trans (le_max_right a y) (foldl_max_le_init xs (max a y))
    · exact ih (max a x) y h

theorem foldl_max_mem {α : Type} [LinearOrder α] :
    ∀ (xs : List α) (a : α), xs.foldl max a = a ∨ xs.foldl max a ∈ xs := by
  intro xs
  induction xs with
  | nil => intro a; exact Or.inl rfl
  | cons x xs ih =>
    intro a
    rw [List.foldl_cons]
    rcases ih (max a x) with h | h
    · rcases max_cases a x with ⟨h1, _⟩ | ⟨h1, _⟩
      · exact Or.inl (by rw [h, h1])
      · exact Or.inr (by rw [h, h1]; exact List.mem_cons_self x xs)
    · exact Or.inr (List.mem_cons_of_mem x h)

theorem d3max_spec {α : Type} [LinearOrder α] (xs : List α) (h : xs ≠ []) :
    ∃ m, d3max xs = some m ∧ m ∈ xs ∧ ∀ y ∈ xs, y ≤ m := by
  cases xs with
  | nil => exact absurd rfl h
  | cons x xs =>
    refine ⟨xs.foldl max x, rfl, ?_, ?_⟩
    · rcases foldl_max_mem xs x with h1 | h1
      · rw [h1]
        exact List.mem_cons_self x xs
      · exact List.mem_cons_of_mem x h1
    · intro y hy
      rcases List.mem_cons.mp hy with h1 | h1
      · subst h1
        exact foldl_max_le_init xs y
      · exact foldl_max_le_mem xs x y h1

/-! ### Lemmas about sortedMetrics -/

theorem mem_sortedMetrics (conf : Configuration) (p : String × ExperimentMetrics) :
    p ∈ sortedMetrics conf ↔ p ∈ conf.metrics :=
  List.mem_insertionSort _

theorem sortedMetrics_ne_nil (conf : Configuration) (h : conf.metrics ≠ []) :
    sortedMetrics conf ≠ [] := by
  intro hnil
  have hperm := List.perm_insertionSort
    (fun p q : String × ExperimentMetrics => p.1 ≤ q.1) conf.metrics
  rw [show List.insertionSort (fun p q : String × ExperimentMetrics => p.1 ≤ q.1)
      conf.metrics = sortedMetrics conf from rfl, hnil] at hperm
  exact h hperm.symm.eq_nil

/-! ### The resampling loop -/

theorem resample_foldl_eq (frac : Nat → ℚ) (r : Nat) :
    ∀ n, (List.range n).foldl (resampleStep frac r) ((0 : ℚ), []) =
      (flPending frac r n, flEmitted frac r n) := by
  intro n
  induction n with
  | zero => rfl
  | succ n ih =>
    rw [List.range_succ, List.foldl_append, ih]
    show resampleStep frac r (flPending frac r n, flEmitted frac r n) n = _
    by_cases h : n % r = 0
    · simp [resampleStep, flPending, flEmitted, h]
    · simp [resampleStep, flPending, flEmitted, h]

theorem resampleLine_eq_flEmitted (frac : Nat → ℚ) (r n : Nat) :
    resampleLine frac r n = flEmitted frac r n := by
  unfold resampleLine
  rw [resample_foldl_eq]

theorem flEmitted_x_lt (frac : Nat → ℚ) (r : Nat) :
    ∀ n, ∀ p ∈ flEmitted frac r n, p.1 < n := by
  intro n
  induction n with
  | zero =>
    intro p hp
    exact absurd hp (by simp [flEmitted])
  | succ n ih =>
    intro p hp
    unfold flEmitted at hp
    rcases List.mem_append.mp hp with h | h
    · exact Nat.lt_succ_of_lt (ih p h)
    · by_cases hm : n % r = 0
      · rw [if_pos hm] at h
        simp only [List.mem_singleton] at h
        subst h
        exact Nat.lt_succ_self n
      · rw [if_neg hm] at h
        cases h

theorem flPending_window (frac : Nat → ℚ) (r : Nat) :
    ∀ i, 1 ≤ i → i ≤ r → ∀ q,
      flPending frac r (q * r + i) =
        ((List.range (i - 1)).map fun j => frac (q * r + 1 + j)).sum := by
  intro i
  induction i with
  | zero => intro h1 _ _; exact absurd h1 (Nat.not_succ_le_zero 0)
  | succ i ih =>
    intro h1 h2 q
    rcases Nat.eq_zero_or_pos i with h0 | hpos
    · subst h0
      show flPending frac r (q * r + 1) = _
      unfold flPending
      rw [if_pos (Nat.mul_mod_left q r)]
      simp
    · have hlt : i < r := by omega
      have hmod : (q * r + i) % r = i := by
        rw [Nat.add_comm, Nat.add_mul_mod_self_right, Nat.mod_eq_of_lt hlt]
      show flPending frac r (q * r + i + 1) = _
      unfold flPending
      rw [if_neg (by omega : ¬ (q * r + i) % r = 0), ih hpos (by omega) q]
      rw [Nat.succ_sub_one]
      rw [show List.range i = List.range (i - 1) ++ [i - 1] from by
        rw [← List.range_succ]
        congr 1
        omega]
      rw [List.map_append, List.sum_append]
      have harg : q * r + 1 + (i - 1) = q * r + i := by omega
      simp [harg]

theorem flPending_add_eq_windowSum (frac : Nat → ℚ) (r : Nat) (hr : 1 ≤ r) (n : Nat)
    (hm : n % r = 0) : flPending frac r n + frac n = windowSum frac r n := by
  rcases Nat.eq_zero_or_pos n with h0 | hpos
  · subst h0
    simp [flPending, windowSum]
  · have hdvd : r ∣ n := Nat.dvd_of_mod_eq_zero hm
    have hq : n / r * r = n := Nat.div_mul_cancel hdvd
    have hq1 : 1 ≤ n / r := by
      rcases Nat.eq_zero_or_pos (n / r) with hz | hp
      · rw [hz, Nat.zero_mul] at hq
        omega
      · exact hp
    have hrn : r ≤ n := by
      calc r = 1 * r := (Nat.one_mul r).symm
        _ ≤ n / r * r := Nat.mul_le_mul_right r hq1
        _ = n := hq
    have hn : n = (n / r - 1) * r + r := by
      rw [Nat.sub_mul, Nat.one_mul, hq, Nat.sub_add_cancel hrn]
    rw [hn, flPending_window frac r r hr (le_refl r) (n / r - 1)]
    unfold windowSum
    rw [if_neg (by omega : ¬ (n / r - 1) * r + r = 0)]
    have hsub : (n / r - 1) * r + r - r = (n / r - 1) * r := by omega
    rw [hsub]
    rw [show List.range r = List.range (r - 1) ++ [r - 1] from by
      rw [← List.range_succ]
      congr 1
      omega]
    rw [List.map_append, List.sum_append]
    have harg : (n / r - 1) * r + 1 + (r - 1) = (n / r - 1) * r + r := by omega
    simp [harg]

theorem resampleLine_eq_blockPoints (frac : Nat → ℚ) (r : Nat) (hr : 1 ≤ r) :
    ∀ n, resampleLine frac r n = blockPoints frac r n := by
  intro n
  rw [resampleLine_eq_flEmitted]
  induction n with
  | zero => rfl
  | succ n ih =>
    show flEmitted frac r n ++ _ = _
    unfold blockPoints at ih ⊢
    rw [List.range_succ, List.filter_append, List.map_append, ← ih]
    by_cases hm : n % r = 0
    · have hfilter : [n].filter (fun m => m % r == 0) = [n] := by simp [hm]
      rw [hfilter, if_pos hm]
      simp [flPending_add_eq_windowSum frac r hr n hm]
    · have hfilter : [n].filter (fun m => m % r == 0) = [] := by simp [hm]
      rw [hfilter, if_neg hm]
      simp

end Ataqv

namespace Ataqv

/-! ### Lemmas about the Map model -/

theorem mapGet_mapSet_self (m : List (String × Bool)) (k : String) (v : Bool) :
    mapGet (mapSet m k v) k = some v := by
  induction m with
  | nil => simp [mapGet, mapSet]
  | cons p rest ih =>
    by_cases h : p.1 = k
    · simp [mapGet, mapSet, h]
    · simp [mapGet, mapSet, h, ih]

theorem mapGet_mapSet_ne (m : List (String × Bool)) (k k' : String) (v : Bool)
    (h : k' ≠ k) : mapGet (mapSet m k v) k' = mapGet m k' := by
  induction m with
  | nil => simp [mapGet, mapSet, Ne.symm h]
  | cons p rest ih =>
    by_cases hp : p.1 = k
    · subst hp
      simp [mapGet, mapSet, Ne.symm h]
    · simp only [mapSet, if_neg hp]
      by_cases hp' : p.1 = k'
      · simp [mapGet, hp']
      · simp [mapGet, hp', ih]

theorem mapKeys_mapSet (m : List (String × Bool)) (k : String) (v : Bool) :
    mapKeys (mapSet m k v) =
      if k ∈ mapKeys m then mapKeys m else mapKeys m ++ [k] := by
  induction m with
  | nil => simp [mapKeys, mapSet]
  | cons p rest ih =>
    by_cases h : p.1 = k
    · subst h
      simp [mapKeys, mapSet]
    · simp only [mapSet, if_neg h, mapKeys, List.map_cons] at ih ⊢
      rw [ih]
      by_cases h2 : k ∈ List.map Prod.fst rest
      · simp [h2, Ne.symm h]
      · simp [h2, Ne.symm h]

theorem nodup_mapKeys_mapSet (m : List (String × Bool)) (k : String) (v : Bool)
    (h : (mapKeys m).Nodup) : (mapKeys (mapSet m k v)).Nodup := by
  rw [mapKeys_mapSet]
  by_cases hk : k ∈ mapKeys m
  · simpa [hk] using h
  · simp [hk, List.nodup_append, h]

theorem mapGet_foldl_mapSet (v : Bool) :
    ∀ (ks : List String) (m : List (String × Bool)) (k : String),
      k ∈ ks ∨ mapGet m k = some v →
      mapGet (ks.foldl (fun acc k' => mapSet acc k' v) m) k = some v := by
  intro ks
  induction ks with
  | nil =>
    intro m k h
    rcases h with h | h
    · cases h
    · simpa using h
  | cons k0 ks ih =>
    intro m k h
    simp only [List.foldl_cons]
    by_cases hk : k = k0
    · subst hk
      exact ih _ _ (Or.inr (mapGet_mapSet_self m k v))
    · rcases h with h | h
      · rcases List.mem_cons.mp h with h1 | h1
        · exact absurd h1 hk
        · exact ih _ _ (Or.inl h1)
      · refine ih _ _ (Or.inr ?_)
        rw [mapGet_mapSet_ne m k0 k v hk]
        exact h

theorem mapKeys_foldl_mapSet_subset (v : Bool) :
    ∀ (ks : List String) (m : List (String × Bool)),
      ∀ x ∈ mapKeys (ks.foldl (fun acc k' => mapSet acc k' v) m),
        x ∈ mapKeys m ∨ x ∈ ks := by
  intro ks
  induction ks with
  | nil =>
    intro m x hx
    exact Or.inl hx
  | cons k0 ks ih =>
    intro m x hx
    simp only [List.foldl_cons] at hx
    rcases ih _ x hx with h | h
    · rw [mapKeys_mapSet] at h
      by_cases hk : k0 ∈ mapKeys m
      · rw [if_pos hk] at h
        exact Or.inl h
      · rw [if_neg hk] at h
        rcases List.mem_append.mp h with h1 | h1
        · exact Or.inl h1
        · simp only [List.mem_singleton] at h1
          exact Or.inr (h1 ▸ List.mem_cons_self _ _)
    · exact Or.inr (List.mem_cons_of_mem _ h)

theorem mapKeys_foldl_mapSet_of_subset (v : Bool) :
    ∀ (ks : List String) (m : List (String × Bool)), (∀ x ∈ ks, x ∈ mapKeys m) →
      mapKeys (ks.foldl (fun acc k' => mapSet acc k' v) m) = mapKeys m := by
  intro ks
  induction ks with
  | nil =>
    intro m _
    rfl
  | cons k0 ks ih =>
    intro m h
    simp only [List.foldl_cons]
    have hk0 : k0 ∈ mapKeys m := h k0 (List.mem_cons_self _ _)
    have hkeys : mapKeys (mapSet m k0 v) = mapKeys m := by
      rw [mapKeys_mapSet, if_pos hk0]
    rw [ih _ (fun x hx => by rw [hkeys]; exact h x (List.mem_cons_of_mem _ hx)), hkeys]

theorem nodup_mapKeys_foldl_mapSet (v : Bool) :
    ∀ (ks : List String) (m : List (String × Bool)), (mapKeys m).Nodup →
      (mapKeys (ks.foldl (fun acc k' => mapSet acc k' v) m)).Nodup := by
  intro ks
  induction ks with
  | nil => intro m h; exact h
  | cons k0 ks ih => intro m h; exact ih _ (nodup_mapKeys_mapSet _ _ _ h)

theorem initialLegendItemState_eq_foldl (conf : Configuration) :
    initialLegendItemState conf =
      (conf.metrics.map fun p => sampleOf p.2).foldl (fun acc k => mapSet acc k true) [] := by
  unfold initialLegendItemState
  rw [List.foldl_map]

/-! ### Claim theorems about SelectionState -/

/-- C8: after initialize() runs on a loaded configuration, the
legendItemState Map has exactly one entry per derivable sample
(library.sample with the experiment name as fallback) — its key list has
no duplicates, every derivable sample's entry reads true, and every key
is a derivable sample. -/
theorem claim_initial_selection_state (conf : Configuration) :
    (mapKeys (initialLegendItemState conf)).Nodup
    ∧ (∀ p ∈ conf.metrics, mapGet (initialLegendItemState conf) (sampleOf p.2) = some true)
    ∧ (∀ k ∈ mapKeys (initialLegendItemState conf), ∃ p ∈ conf.metrics, sampleOf p.2 = k) := by
  rw [initialLegendItemState_eq_foldl]
  refine ⟨?_, ?_, ?_⟩
  · exact nodup_mapKeys_foldl_mapSet true _ [] (by simp [mapKeys])
  · intro p hp
    exact mapGet_foldl_mapSet true _ [] _
      (Or.inl (List.mem_map_of_mem (fun q => sampleOf q.2) hp))
  · intro k hk
    rcases mapKeys_foldl_mapSet_subset true _ [] k hk with h | h
    · simp [mapKeys] at h
    · rcases List.mem_map.mp h with ⟨p, hp, hpk⟩
      exact ⟨p, hp, hpk⟩

/-- C9: selectLegendItem on a sample present in legendItemState flips
exactly that sample's entry — the entry becomes its negation, every
other key's entry is unchanged, and toggling twice restores the original
value. -/
theorem claim_toggle_flips_one (m : List (String × Bool)) (s : String) (b : Bool)
    (hb : mapGet m s = some b) :
    mapGet (selectLegendItem m s) s = some (!b)
    ∧ (∀ t, t ≠ s → mapGet (selectLegendItem m s) t = mapGet m t)
    ∧ mapGet (selectLegendItem (selectLegendItem m s) s) s = some b := by
  cases b with
  | false =>
    have h1 : selectLegendItem m s = mapSet m s true := by
      unfold selectLegendItem
      rw [hb]
    have h2 : selectLegendItem (mapSet m s true) s = mapSet (mapSet m s true) s false := by
      unfold selectLegendItem
      rw [mapGet_mapSet_self]
    refine ⟨?_, ?_, ?_⟩
    · rw [h1, mapGet_mapSet_self]
      rfl
    · intro t ht
      rw [h1, mapGet_mapSet_ne m s t true ht]
    · rw [h1, h2, mapGet_mapSet_self]
  | true =>
    have h1 : selectLegendItem m s = mapSet m s false := by
      unfold selectLegendItem
      rw [hb]
    have h2 : selectLegendItem (mapSet m s false) s = mapSet (mapSet m s false) s true := by
      unfold selectLegendItem
      rw [mapGet_mapSet_self]
    refine ⟨?_, ?_, ?_⟩
    · rw [h1, mapGet_mapSet_self]
      rfl
    · intro t ht
      rw [h1, mapGet_mapSet_ne m s t false ht]
    · rw [h1, h2, mapGet_mapSet_self]

/-- C9 witness: toggling the sample s1 of a concrete two-sample state. -/
theorem claim_toggle_flips_one_witness :
    mapGet [("s1", true), ("s2", false)] "s1" = some true
    ∧ (mapGet (selectLegendItem [("s1", true), ("s2", false)] "s1") "s1" = some (!true)
      ∧ (∀ t, t ≠ "s1" →
          mapGet (selectLegendItem [("s1", true), ("s2", false)] "s1") t =
            mapGet [("s1", true), ("s2", false)] t)
      ∧ mapGet (selectLegendItem (selectLegendItem [("s1", true), ("s2", false)] "s1") "s1")
          "s1" = some true) :=
  ⟨by decide, claim_toggle_flips_one [("s1", true), ("s2", false)] "s1" true (by decide)⟩

/-- C10: running selectAllLegendItems then deselectAllLegendItems leaves
every known sample's entry false, and the reverse order leaves every
known sample's entry true. -/
theorem claim_select_deselect_all (m : List (String × Bool)) (k : String)
    (hk : k ∈ mapKeys m) :
    mapGet (deselectAllLegendItems (selectAllLegendItems m)) k = some false
    ∧ mapGet (selectAllLegendItems (deselectAllLegendItems m)) k = some true := by
  have hsel : mapKeys (selectAllLegendItems m) = mapKeys m :=
    mapKeys_foldl_mapSet_of_subset true (mapKeys m) m (fun x hx => hx)
  have hdesel : mapKeys (deselectAllLegendItems m) = mapKeys m :=
    mapKeys_foldl_mapSet_of_subset false (mapKeys m) m (fun x hx => hx)
  constructor
  · unfold deselectAllLegendItems
    exact mapGet_foldl_mapSet false _ _ _ (Or.inl (by rw [hsel]; exact hk))
  · unfold selectAllLegendItems
    exact mapGet_foldl_mapSet true _ _ _ (Or.inl (by rw [hdesel]; exact hk))

/-! ### The peak percentile loop -/

theorem getD_pred_length_eq_getLastD (l : List ℚ) :
    l.getD (l.length - 1) 0 = l.getLastD 0 := by
  rw [List.getLastD_eq_getLast?, List.getLast?_eq_getElem?, List.getD_eq_getElem?_getD]

theorem peakCarry_eq_peakValue (ps : List ℚ) (n : Nat) (h : ¬ n < ps.length) :
    peakCarry ps n = peakValue ps n := by
  cases n with
  | zero =>
    have hnil : ps = [] := List.length_eq_zero.mp (by omega)
    subst hnil
    rfl
  | succ n =>
    show peakValue ps n = peakValue ps (n + 1)
    unfold peakValue
    rw [if_neg h]
    by_cases hn : n < ps.length
    · have hlen : n = ps.length - 1 := by omega
      rw [if_pos hn, hlen, getD_pred_length_eq_getLastD]
    · rw [if_neg hn]

theorem peak_foldl_eq (ps : List ℚ) :
    ∀ n, (List.range n).foldl (peakStep ps) ((0 : ℚ), []) =
      (peakCarry ps n, (List.range n).map fun i => (i + 1, peakValue ps i)) := by
  intro n
  induction n with
  | zero => rfl
  | succ n ih =>
    rw [List.range_succ, List.foldl_append, ih, List.map_append]
    show peakStep ps (peakCarry ps n, _) n = _
    unfold peakStep
    have hval : (if n < ps.length then ps.getD n 0 else peakCarry ps n) = peakValue ps n := by
      by_cases hn : n < ps.length
      · rw [if_pos hn]
        unfold peakValue
        rw [if_pos hn]
      · rw [if_neg hn, peakCarry_eq_peakValue ps n hn]
    simp only [hval]
    rfl

theorem peakLine_eq_map (ps : List ℚ) :
    peakLine ps = (List.range 100).map fun i => (i + 1, peakValue ps i) := by
  unfold peakLine
  rw [peak_foldl_eq]

theorem peakLine_length (ps : List ℚ) : (peakLine ps).length = 100 := by
  rw [peakLine_eq_map, List.length_map, List.length_range]

theorem peakLine_carry (ps : List ℚ) (k : Nat) (h2 : ps.length < k) (h3 : k ≤ 100) :
    (peakLine ps).getD (k - 1) (0, 0) = (k, ps.getLastD 0) := by
  rw [peakLine_eq_map]
  have hk1 : k - 1 < ((List.range 100).map fun i => (i + 1, peakValue ps i)).length := by
    rw [List.length_map, List.length_range]
    omega
  rw [List.getD_eq_getElem _ _ hk1, List.getElem_map, List.getElem_range]
  have hx : k - 1 + 1 = k := by omega
  have hval : peakValue ps (k - 1) = ps.getLastD 0 := by
    unfold peakValue
    rw [if_neg (by omega)]
  rw [hx, hval]

/-! ### Inversion of flProvideData -/

theorem flProvideData_none_of_no_ref (conf : Configuration) (r : Nat)
    (href : conf.fragment_length_reference = none) : flProvideData conf r = none := by
  unfold flProvideData
  rw [href]

theorem flProvideData_none_of_short_ref (conf : Configuration) (r : Nat)
    (ref : FragmentLengthReference) (href : conf.fragment_length_reference = some ref)
    (hlen : ref.distribution.length < flMaxLen conf) : flProvideData conf r = none := by
  simp only [flProvideData, href]
  rw [if_pos hlen]

theorem flProvideData_eq (conf : Configuration) (r : Nat)
    (ref : FragmentLengthReference) (href : conf.fragment_length_reference = some ref)
    (hlen : flMaxLen conf ≤ ref.distribution.length) :
    flProvideData conf r = some (flPlotDataOf conf r ref) := by
  simp only [flProvideData, href]
  rw [if_neg (not_lt.mpr hlen)]
  rfl

/-! ### Claim theorems about the fragment length transform -/

/-- C2 counterexample: on a configuration in which every optional field
is absent — in particular no fragment_length_reference — the fragment
length transform does not produce a dataset: it throws (none models the
TypeError raised when configuration.fragment_length_reference.source is
read). -/
theorem claim_graceful_degradation_counterexample :
    noRefConf.fragment_length_reference = none ∧ flProvideData noRefConf 10 = none :=
  ⟨rfl, rfl⟩

/-- C2 amended: the distance-vs-metric scatter (under every y-axis
option), the mapping quality transform and both peak transforms produce
a dataset with one point or series per experiment for every
configuration, including configurations whose optional fields are
absent; the fragment length transform, however, produces a dataset
exactly when fragment_length_reference is present with a distribution
at least as long as the plotted range, and otherwise raises an
error. -/
theorem claim_graceful_degradation_amended (conf : Configuration) (r : Nat)
    (src : YAxisSource) :
    ((flProvideData conf r).isSome = true ↔
      ∃ ref, conf.fragment_length_reference = some ref
        ∧ flMaxLen conf ≤ ref.distribution.length)
    ∧ (scatterData src conf).length = conf.metrics.length
    ∧ (mapqData conf).series.length = conf.metrics.length
    ∧ (peakReadCountsData conf).series.length = conf.metrics.length
    ∧ (peakTerritoryData conf).series.length = conf.metrics.length := by
  have hsorted : (sortedMetrics conf).length = conf.metrics.length :=
    (List.perm_insertionSort _ conf.metrics).length_eq
  refine ⟨⟨?_, ?_⟩, ?_, ?_, ?_, ?_⟩
  · intro h
    rcases href : conf.fragment_length_reference with _ | ref
    · rw [flProvideData_none_of_no_ref conf r href] at h
      simp at h
    · by_cases hlen : ref.distribution.length < flMaxLen conf
      · rw [flProvideData_none_of_short_ref conf r ref href hlen] at h
        simp at h
      · exact ⟨ref, rfl, not_lt.mp hlen⟩
  · rintro ⟨ref, href, hlen⟩
    rw [flProvideData_eq conf r ref href hlen]
    rfl
  · show ((sortedMetrics conf).map _).length = _
    rw [List.length_map]
    exact hsorted
  · show ((sortedMetrics conf).map _).length = _
    rw [List.length_map]
    exact hsorted
  · show ((sortedMetrics conf).map _).length = _
    rw [List.length_map]
    exact hsorted
  · show ((sortedMetrics conf).map _).length = _
    rw [List.length_map]
    exact hsorted

/-- C6: whenever the fragment length transform succeeds on a non-empty
dataset, the maximum plotted length — the produced dataset's xMax — is
the minimum, over all experiments, of the fragment_length_counts
length: it is one of those lengths and bounds each of them from below,
and every point of every emitted series and of the reference curve has
x strictly below it. -/
theorem claim_truncation (conf : Configuration) (r : Nat) (h1 : conf.metrics ≠ [])
    (ref : FragmentLengthReference) (href : conf.fragment_length_reference = some ref)
    (hlen : flMaxLen conf ≤ ref.distribution.length) :
    match flProvideData conf r with
    | none => False
    | some d =>
      d.xMax ∈ flLengths conf
      ∧ (∀ len ∈ flLengths conf, d.xMax ≤ len)
      ∧ (∀ p ∈ d.series, ∀ q ∈ p.2.line, q.1 < d.xMax)
      ∧ (∀ q ∈ d.referenceLine, q.1 < d.xMax) := by
  have hlens : flLengths conf ≠ [] := by
    unfold flLengths
    intro hnil
    exact sortedMetrics_ne_nil conf h1 (List.map_eq_nil_iff.mp hnil)
  obtain ⟨mn, hmn, hmem, hle⟩ := d3min_spec (flLengths conf) hlens
  have hmax : flMaxLen conf = mn := by
    unfold flMaxLen
    rw [hmn]
    rfl
  rw [flProvideData_eq conf r ref href hlen]
  refine ⟨?_, ?_, ?_, ?_⟩
  · show flMaxLen conf ∈ flLengths conf
    rw [hmax]
    exact hmem
  · show ∀ len ∈ flLengths conf, flMaxLen conf ≤ len
    intro len hl
    rw [hmax]
    exact hle len hl
  · show ∀ p ∈ (sortedMetrics conf).map fun p =>
        (p.1, flSeriesFor r (flMaxLen conf) p.1 p.2), ∀ q ∈ p.2.line, q.1 < flMaxLen conf
    intro p hp q hq
    rcases List.mem_map.mp hp with ⟨a, _, rfl⟩
    have hq' : q ∈ resampleLine (fracAt a.2.fragment_length_counts) r (flMaxLen conf) := hq
    rw [resampleLine_eq_flEmitted] at hq'
    exact flEmitted_x_lt _ r (flMaxLen conf) q hq'
  · show ∀ q ∈ resampleLine (fracAt ref.distribution) r (flMaxLen conf), q.1 < flMaxLen conf
    intro q hq
    rw [resampleLine_eq_flEmitted] at hq
    exact flEmitted_x_lt _ r (flMaxLen conf) q hq

/-- C6 witness: the truncation example — experiments with 150 and 120
histogram entries give a plotted maximum length of 120. -/
theorem claim_truncation_witness :
    flMaxLen truncationExampleConf = 120
    ∧ truncationExampleConf.metrics ≠ []
    ∧ (match flProvideData truncationExampleConf 10 with
      | none => False
      | some d =>
        d.xMax ∈ flLengths truncationExampleConf
        ∧ (∀ len ∈ flLengths truncationExampleConf, d.xMax ≤ len)
        ∧ (∀ p ∈ d.series, ∀ q ∈ p.2.line, q.1 < d.xMax)
        ∧ (∀ q ∈ d.referenceLine, q.1 < d.xMax)) := by
  have hAB : ("expA" : String) ≤ "expB" := by
    rw [String.le_iff_toList_le]
    decide
  have hmax : flMaxLen truncationExampleConf = 120 := by
    norm_num [flMaxLen, flLengths, sortedMetrics, truncationExampleConf,
      List.insertionSort, List.orderedInsert, hAB, d3min]
  refine ⟨hmax, by simp [truncationExampleConf], ?_⟩
  exact claim_truncation truncationExampleConf 10 (by simp [truncationExampleConf])
    { source := "ref", distribution := List.replicate 120 (0, 0) } rfl
    (by rw [hmax]; simp)

/-- C1 counterexample: on fractions 2, 4, 6, 8 at resolution 2 the
fragment length transform emits the points (0, 1) and (2, 5) — the loop
emits at the start of a window, so the window at x = 0 holds position 0
alone and the window at x = 2 holds positions 1 and 2 — not the claimed
(0, 3) and (2, 7). -/
theorem claim_block_mean_counterexample :
    (flProvideData blockMeanExampleConf 2).map (fun d => d.series.map fun p => p.2.line) =
      some [[(0, 1), (2, 5)]]
    ∧ some [[((0 : Nat), (1 : ℚ)), (2, 5)]] ≠ some [[((0 : Nat), (3 : ℚ)), (2, 7)]] := by
  constructor
  · norm_num [flProvideData, blockMeanExampleConf, sortedMetrics, List.insertionSort,
      List.orderedInsert, flMaxLen, flLengths, d3min, flSeriesFor, resampleLine,
      resampleStep, fracAt, List.range_succ]
  · intro h
    norm_num at h

/-- C1 amended: the resampling loop shared by every series of the
fragment length transform (and by its reference curve) emits one point
at each index m below the maximum plotted length with m a multiple of
the resolution; the point at x = 0 averages position 0 alone, and the
point at x = m > 0 averages the resolution positions m−resolution+1
through m; trailing positions after the last emitted index are dropped.
In particular fractions 2, 4, 6, 8 at resolution 2 give (0, 1) and
(2, 5). -/
theorem claim_block_mean_amended (frac : Nat → ℚ) (r maxLen : Nat) (hr : 1 ≤ r) :
    resampleLine frac r maxLen = blockPoints frac r maxLen :=
  resampleLine_eq_blockPoints frac r hr maxLen

/-- C1 amended witness: the window characterization instantiated on the
spec's block-mean example at resolution 2. -/
theorem claim_block_mean_amended_witness :
    1 ≤ 2
    ∧ resampleLine (fracAt [(0, 2), (1, 4), (2, 6), (3, 8)]) 2 4 =
      blockPoints (fracAt [(0, 2), (1, 4), (2, 6), (3, 8)]) 2 4 :=
  ⟨by norm_num, claim_block_mean_amended (fracAt [(0, 2), (1, 4), (2, 6), (3, 8)]) 2 4
    (by norm_num)⟩

/-! ### Claim theorems about the scatter plot -/

/-- C4: for a non-empty scatter dataset the x-axis domain is the
symmetric interval [-limit, limit] when some x value is negative and
[0, limit] otherwise, where the limit is 1.05 times the largest absolute
x value: it bounds |x| * 1.05 for every x and is attained at one of
them. -/
theorem claim_scatter_x_domain (xs : List ℚ) (h : xs ≠ []) :
    ((∃ x ∈ xs, x < 0) → scatterXDomain xs = (-scatterLimit xs, scatterLimit xs))
    ∧ ((∀ x ∈ xs, 0 ≤ x) → scatterXDomain xs = (0, scatterLimit xs))
    ∧ (∀ x ∈ xs, |x| * (21 / 20) ≤ scatterLimit xs)
    ∧ (∃ x ∈ xs, scatterLimit xs = |x| * (21 / 20)) := by
  obtain ⟨mn, hmn, hmnmem, hmnle⟩ := d3min_spec xs h
  obtain ⟨mx, hmx, hmxmem, hmxle⟩ := d3max_spec xs h
  have hmin0 : (d3min xs).getD 0 = mn := by rw [hmn]; rfl
  have hmax0 : (d3max xs).getD 0 = mx := by rw [hmx]; rfl
  refine ⟨?_, ?_, ?_, ?_⟩
  · rintro ⟨x, hx, hx0⟩
    unfold scatterXDomain
    rw [hmin0, if_pos (lt_of_le_of_lt (hmnle x hx) hx0)]
  · intro hall
    unfold scatterXDomain
    rw [hmin0, if_neg (not_lt.mpr (hall mn hmnmem))]
  · intro x hx
    unfold scatterLimit
    rw [hmin0, hmax0]
    have habs : |x| ≤ max |mn| |mx| := by
      rcases le_or_lt 0 x with hx0 | hx0
      · calc |x| = x := abs_of_nonneg hx0
          _ ≤ mx := hmxle x hx
          _ ≤ |mx| := le_abs_self mx
          _ ≤ max |mn| |mx| := le_max_right _ _
      · calc |x| = -x := abs_of_neg hx0
          _ ≤ -mn := neg_le_neg (hmnle x hx)
          _ ≤ |mn| := neg_le_abs mn
          _ ≤ max |mn| |mx| := le_max_left _ _
    exact mul_le_mul_of_nonneg_right habs (by norm_num)
  · unfold scatterLimit
    rw [hmin0, hmax0]
    rcases max_cases |mn| |mx| with ⟨h1, _⟩ | ⟨h1, _⟩
    · exact ⟨mn, hmnmem, by rw [h1]⟩
    · exact ⟨mx, hmxmem, by rw [h1]⟩

/-- C4 witness: the scatter x-domain on the x values -3 and 1, whose
limit is 3 * 1.05 = 63/20. -/
theorem claim_scatter_x_domain_witness :
    ([(-3 : ℚ), 1] ≠ [])
    ∧ (((∃ x ∈ [(-3 : ℚ), 1], x < 0) →
        scatterXDomain [(-3 : ℚ), 1] = (-scatterLimit [(-3 : ℚ), 1], scatterLimit [(-3 : ℚ), 1]))
      ∧ ((∀ x ∈ [(-3 : ℚ), 1], 0 ≤ x) →
        scatterXDomain [(-3 : ℚ), 1] = (0, scatterLimit [(-3 : ℚ), 1]))
      ∧ (∀ x ∈ [(-3 : ℚ), 1], |x| * (21 / 20) ≤ scatterLimit [(-3 : ℚ), 1])
      ∧ (∃ x ∈ [(-3 : ℚ), 1], scatterLimit [(-3 : ℚ), 1] = |x| * (21 / 20))) :=
  ⟨by simp, claim_scatter_x_domain [(-3 : ℚ), 1] (by simp)⟩

theorem foldl_add_eq_sum (l : List ℚ) : ∀ a, l.foldl (· + ·) a = a + l.sum := by
  induction l with
  | nil => intro a; simp
  | cons x l ih =>
    intro a
    rw [List.foldl_cons, ih, List.sum_cons]
    ring

/-- C5: the per-sample aggregates of the distance scatter are the
arithmetic mean of the group's x values and the mean of squared
deviations from it with divisor N — the population variance, whose
square root is the reported standard deviation; on the x values
10, 20, 30 the mean is 20, the variance is 200/3, and the standard
deviation is the square root of 200/3. -/
theorem claim_sample_aggregates (xs : List ℚ) (h : xs ≠ []) :
    meanDistance xs = xs.sum / xs.length
    ∧ meanSquareOfDifferences xs =
        ((xs.map fun x => (x - xs.sum / xs.length) ^ 2).sum) / xs.length
    ∧ meanDistance [10, 20, 30] = 20
    ∧ meanSquareOfDifferences [10, 20, 30] = 200 / 3
    ∧ Real.sqrt ((meanSquareOfDifferences [10, 20, 30] : ℚ) : ℝ) = Real.sqrt (200 / 3) := by
  have hmean : ∀ ys : List ℚ, meanDistance ys = ys.sum / ys.length := by
    intro ys
    unfold meanDistance
    rw [foldl_add_eq_sum, zero_add]
  have hvar : ∀ ys : List ℚ, meanSquareOfDifferences ys =
      ((ys.map fun x => (x - ys.sum / ys.length) ^ 2).sum) / ys.length := by
    intro ys
    unfold meanSquareOfDifferences
    rw [foldl_add_eq_sum, zero_add, hmean]
  have hmean3 : meanDistance [10, 20, 30] = 20 := by
    rw [hmean]
    norm_num
  have hvar3 : meanSquareOfDifferences [10, 20, 30] = 200 / 3 := by
    rw [hvar]
    norm_num
  refine ⟨hmean xs, hvar xs, hmean3, hvar3, ?_⟩
  rw [hvar3]
  norm_num

/-- C5 witness: the aggregates on the spec's example group 10, 20, 30. -/
theorem claim_sample_aggregates_witness :
    ([(10 : ℚ), 20, 30] ≠ [])
    ∧ (meanDistance [10, 20, 30] = [(10 : ℚ), 20, 30].sum / [(10 : ℚ), 20, 30].length
      ∧ meanSquareOfDifferences [10, 20, 30] =
          (([(10 : ℚ), 20, 30].map fun x =>
            (x - [(10 : ℚ), 20, 30].sum / [(10 : ℚ), 20, 30].length) ^ 2).sum) /
            [(10 : ℚ), 20, 30].length
      ∧ meanDistance [10, 20, 30] = 20
      ∧ meanSquareOfDifferences [10, 20, 30] = 200 / 3
      ∧ Real.sqrt ((meanSquareOfDifferences [10, 20, 30] : ℚ) : ℝ) = Real.sqrt (200 / 3)) :=
  ⟨by simp, claim_sample_aggregates [10, 20, 30] (by simp)⟩

/-! ### Claim theorems about the peak transforms -/

/-- C3: in both peak cumulative-curve transforms, an experiment whose
percentile array has L entries with 1 ≤ L < 100 gets a 100-point curve
in which every 1-based point index k with L < k ≤ 100 carries the
array's last entry (index L−1) forward: the k-th point is
(k, last entry). -/
theorem claim_percentile_carry_forward (conf : Configuration) (id : String)
    (m : ExperimentMetrics) (pp : PeakPercentiles) (k : Nat)
    (hm : (id, m) ∈ sortedMetrics conf) (hpp : m.peak_percentiles = some pp)
    (hk : k ≤ 100) :
    (1 ≤ pp.cumulative_fraction_of_hqaa.length →
      pp.cumulative_fraction_of_hqaa.length < k →
      ((id, peakSeriesFor pp.cumulative_fraction_of_hqaa id m) ∈
          (peakReadCountsData conf).series
        ∧ (peakSeriesFor pp.cumulative_fraction_of_hqaa id m).line.length = 100
        ∧ (peakSeriesFor pp.cumulative_fraction_of_hqaa id m).line.getD (k - 1) (0, 0) =
            (k, pp.cumulative_fraction_of_hqaa.getLastD 0)))
    ∧ (1 ≤ pp.cumulative_fraction_of_territory.length →
      pp.cumulative_fraction_of_territory.length < k →
      ((id, peakSeriesFor pp.cumulative_fraction_of_territory id m) ∈
          (peakTerritoryData conf).series
        ∧ (peakSeriesFor pp.cumulative_fraction_of_territory id m).line.length = 100
        ∧ (peakSeriesFor pp.cumulative_fraction_of_territory id m).line.getD (k - 1) (0, 0) =
            (k, pp.cumulative_fraction_of_territory.getLastD 0))) := by
  constructor
  · intro _ hLk
    refine ⟨?_, peakLine_length _, peakLine_carry _ k hLk hk⟩
    show (id, peakSeriesFor pp.cumulative_fraction_of_hqaa id m) ∈
      (sortedMetrics conf).map fun p =>
        (p.1, peakSeriesFor
          (percentilesOrZeros p.2 PeakPercentiles.cumulative_fraction_of_hqaa) p.1 p.2)
    have hz : peakSeriesFor pp.cumulative_fraction_of_hqaa id m =
        peakSeriesFor (percentilesOrZeros m PeakPercentiles.cumulative_fraction_of_hqaa)
          id m := by
      unfold percentilesOrZeros
      rw [hpp]
    rw [hz]
    exact List.mem_map_of_mem _ hm
  · intro _ hLk
    refine ⟨?_, peakLine_length _, peakLine_carry _ k hLk hk⟩
    show (id, peakSeriesFor pp.cumulative_fraction_of_territory id m) ∈
      (sortedMetrics conf).map fun p =>
        (p.1, peakSeriesFor
          (percentilesOrZeros p.2 PeakPercentiles.cumulative_fraction_of_territory) p.1 p.2)
    have hz : peakSeriesFor pp.cumulative_fraction_of_territory id m =
        peakSeriesFor (percentilesOrZeros m PeakPercentiles.cumulative_fraction_of_territory)
          id m := by
      unfold percentilesOrZeros
      rw [hpp]
    rw [hz]
    exact List.mem_map_of_mem _ hm

/-- C3 witness: a 40-entry percentile array feeding the 100-point curve,
inspected at the 1-based point index 41. -/
theorem claim_percentile_carry_forward_witness :
    ("exp1", carryForwardExampleMetrics) ∈ sortedMetrics carryForwardExampleConf
    ∧ carryForwardExampleMetrics.peak_percentiles = some carryForwardExamplePercentiles
    ∧ (41 : Nat) ≤ 100
    ∧ ((1 ≤ carryForwardExamplePercentiles.cumulative_fraction_of_hqaa.length →
        carryForwardExamplePercentiles.cumulative_fraction_of_hqaa.length < 41 →
        (("exp1", peakSeriesFor carryForwardExamplePercentiles.cumulative_fraction_of_hqaa
            "exp1" carryForwardExampleMetrics) ∈
              (peakReadCountsData carryForwardExampleConf).series
          ∧ (peakSeriesFor carryForwardExamplePercentiles.cumulative_fraction_of_hqaa
              "exp1" carryForwardExampleMetrics).line.length = 100
          ∧ (peakSeriesFor carryForwardExamplePercentiles.cumulative_fraction_of_hqaa
              "exp1" carryForwardExampleMetrics).line.getD (41 - 1) (0, 0) =
              (41, carryForwardExamplePercentiles.cumulative_fraction_of_hqaa.getLastD 0)))
      ∧ (1 ≤ carryForwardExamplePercentiles.cumulative_fraction_of_territory.length →
        carryForwardExamplePercentiles.cumulative_fraction_of_territory.length < 41 →
        (("exp1", peakSeriesFor carryForwardExamplePercentiles.cumulative_fraction_of_territory
            "exp1" carryForwardExampleMetrics) ∈
              (peakTerritoryData carryForwardExampleConf).series
          ∧ (peakSeriesFor carryForwardExamplePercentiles.cumulative_fraction_of_territory
              "exp1" carryForwardExampleMetrics).line.length = 100
          ∧ (peakSeriesFor carryForwardExamplePercentiles.cumulative_fraction_of_territory
              "exp1" carryForwardExampleMetrics).line.getD (41 - 1) (0, 0) =
              (41, carryForwardExamplePercentiles.cumulative_fraction_of_territory.getLastD
                0)))) :=
  ⟨by simp [sortedMetrics, carryForwardExampleConf, List.insertionSort, List.orderedInsert],
    rfl, by norm_num,
    claim_percentile_carry_forward carryForwardExampleConf "exp1"
      carryForwardExampleMetrics carryForwardExamplePercentiles 41
      (by simp [sortedMetrics, carryForwardExampleConf, List.insertionSort,
        List.orderedInsert])
      rfl (by norm_num)⟩

/-- C7: in both peak transforms an experiment lacking peak_percentiles
data is given the substitute zero-filled 100-entry array, so its emitted
curve has exactly 100 points, every one with y = 0. -/
theorem claim_zero_fill (conf : Configuration) (id : String) (m : ExperimentMetrics)
    (hm : (id, m) ∈ sortedMetrics conf) (hp : m.peak_percentiles = none) :
    ((id, peakSeriesFor (List.replicate 100 0) id m) ∈ (peakReadCountsData conf).series
      ∧ (id, peakSeriesFor (List.replicate 100 0) id m) ∈ (peakTerritoryData conf).series)
    ∧ (peakSeriesFor (List.replicate 100 0) id m).line.length = 100
    ∧ (∀ q ∈ (peakSeriesFor (List.replicate 100 0) id m).line, q.2 = 0) := by
  have hz : percentilesOrZeros m PeakPercentiles.cumulative_fraction_of_hqaa =
      List.replicate 100 0 := by
    unfold percentilesOrZeros
    rw [hp]
  have hz2 : percentilesOrZeros m PeakPercentiles.cumulative_fraction_of_territory =
      List.replicate 100 0 := by
    unfold percentilesOrZeros
    rw [hp]
  refine ⟨⟨?_, ?_⟩, peakLine_length _, ?_⟩
  · show (id, peakSeriesFor (List.replicate 100 0) id m) ∈
      (sortedMetrics conf).map fun p =>
        (p.1, peakSeriesFor
          (percentilesOrZeros p.2 PeakPercentiles.cumulative_fraction_of_hqaa) p.1 p.2)
    rw [← hz]
    exact List.mem_map_of_mem _ hm
  · show (id, peakSeriesFor (List.replicate 100 0) id m) ∈
      (sortedMetrics conf).map fun p =>
        (p.1, peakSeriesFor
          (percentilesOrZeros p.2 PeakPercentiles.cumulative_fraction_of_territory) p.1 p.2)
    rw [← hz2]
    exact List.mem_map_of_mem _ hm
  · intro q hq
    have hq' : q ∈ peakLine (List.replicate 100 0) := hq
    rw [peakLine_eq_map] at hq'
    rcases List.mem_map.mp hq' with ⟨i, hi, rfl⟩
    show peakValue (List.replicate 100 0) i = 0
    unfold peakValue
    rw [List.length_replicate]
    rw [if_pos (List.mem_range.mp hi)]
    rw [List.getD_eq_getElem _ _
      (by rw [List.length_replicate]; exact List.mem_range.mp hi), List.getElem_replicate]

/-- C7 witness: the zero-filled curve of the experiment with no
peak_percentiles in the all-optional-fields-absent configuration. -/
theorem claim_zero_fill_witness :
    ("exp1", noPeakMetrics) ∈ sortedMetrics noRefConf
    ∧ noPeakMetrics.peak_percentiles = none
    ∧ ((("exp1", peakSeriesFor (List.replicate 100 0) "exp1" noPeakMetrics) ∈
          (peakReadCountsData noRefConf).series
        ∧ ("exp1", peakSeriesFor (List.replicate 100 0) "exp1" noPeakMetrics) ∈
          (peakTerritoryData noRefConf).series)
      ∧ (peakSeriesFor (List.replicate 100 0) "exp1" noPeakMetrics).line.length = 100
      ∧ (∀ q ∈ (peakSeriesFor (List.replicate 100 0) "exp1" noPeakMetrics).line,
          q.2 = 0)) :=
  ⟨by simp [sortedMetrics, noRefConf, List.insertionSort, List.orderedInsert], rfl,
    claim_zero_fill noRefConf "exp1" noPeakMetrics
      (by simp [sortedMetrics, noRefConf, List.insertionSort, List.orderedInsert]) rfl⟩

/-- C10 witness: both round trips on a concrete two-sample state. -/
theorem claim_select_deselect_all_witness :
    "s2" ∈ mapKeys [("s1", true), ("s2", false)]
    ∧ (mapGet (deselectAllLegendItems (selectAllLegendItems [("s1", true), ("s2", false)]))
        "s2" = some false
      ∧ mapGet (selectAllLegendItems (deselectAllLegendItems [("s1", true), ("s2", false)]))
        "s2" = some true) :=
  ⟨by decide, claim_select_deselect_all [("s1", true), ("s2", false)] "s2" (by decide)⟩

end Ataqv
